import Mathlib

/-!
Verification of the TestFlow asynchronous execution engine.

Shallow embedding of `app/tasks/execution_tasks.py` and the relevant parts of
`app/models/execution.py`.  The relational store, the Redis progress cache and
the MongoDB log store are modelled as explicit state (`Sys`); timestamps are
abstract clock ticks; the unit-of-work runner (the random pass/fail stand-in in
`_execute_single_test`) and the fallibility of the cache / document-store
writes are supplied by an environment (`Env`).  Python exceptions are modelled
as values: fallible operations return the mutated state together with an
`Option String` / outcome sum, matching the fact that committed writes survive
a later raise.
-/

namespace TestFlow

/-- `ExecutionStatus` from `app/models/execution.py`. -/
inductive ExecutionStatus
  | pending | queued | running | paused | completed | failed | cancelled | timeout
deriving DecidableEq, Repr

/-- `TestResultStatus` from `app/models/execution.py`. -/
inductive TestResultStatus
  | passed | failed | skipped | blocked | error | pending
deriving DecidableEq, Repr

/-- A `TestCase` row (`app/models/test_case.py`): the fields the engine reads.
`suite_ids` models the many-to-many `test_suites` association. -/
structure TestCase where
  id : Nat
  project_id : Nat
  status : String
  suite_ids : List Nat
deriving DecidableEq, Repr

/-- A `TestExecution` row: the fields the engine reads or writes. -/
structure TestExecution where
  id : Nat
  project_id : Nat
  test_suite_id : Option Nat
  status : ExecutionStatus
  environment : Option String
  started_at : Option Nat
  completed_at : Option Nat
  duration_seconds : Option Int
  total_tests : Nat
  passed_tests : Nat
  failed_tests : Nat
  skipped_tests : Nat
  blocked_tests : Nat
  error_tests : Nat
  error_message : Option String
  celery_task_id : Option String
deriving DecidableEq, Repr

/-- A `TestCaseResult` row: the fields the engine reads or writes. -/
structure TestCaseResult where
  id : Nat
  execution_id : Nat
  test_case_id : Nat
  status : TestResultStatus
  started_at : Option Nat
  completed_at : Option Nat
  duration_seconds : Option Int
  error_message : Option String
  actual_result : Option String
  environment : Option String
deriving DecidableEq, Repr

/-- The JSON payloads written to Redis by the engine, one constructor per
distinct dict shape in `execution_tasks.py`. -/
inductive Snapshot
  | runningInit (started_at : Option Nat) (progress : ℚ)
  | runningProgress (progress : ℚ) (completed : Nat) (total : Nat)
  | completedSnap (completed_at : Option Nat) (duration : Option Int) (pass_rate : ℚ)
  | failedSnap (error : String)
deriving DecidableEq, Repr

/-- One element of the `results` array of a MongoDB log entry. -/
structure LogResult where
  test_case_id : Nat
  status : TestResultStatus
  duration : Option Int
  error : Option String
deriving DecidableEq, Repr

/-- One MongoDB `execution_logs` document (`_store_execution_logs`). -/
structure LogEntry where
  execution_id : Nat
  timestamp : Nat
  results_count : Nat
  results : List LogResult
deriving DecidableEq, Repr

/-- The relational store: execution rows, test-case rows, result rows, and the
primary-key counter for result rows. -/
structure DB where
  executions : List TestExecution
  test_cases : List TestCase
  results : List TestCaseResult
  next_result_id : Nat
deriving DecidableEq, Repr

/-- Global state: relational store, Redis cache (assoc list keyed by execution
id), MongoDB log entries, an abstract clock (each `datetime.utcnow()` reads the
clock and advances it), and a counter of cache-write attempts used to address
injected cache failures. -/
structure Sys where
  db : DB
  cache : List (Nat × Snapshot)
  logs : List LogEntry
  clock : Nat
  cacheWrites : Nat
deriving DecidableEq, Repr

/-- Outcome of one unit-of-work runner invocation: the `try` body of
`_execute_single_test` either produces a pass/fail verdict or raises. -/
inductive RunnerOutcome
  | ok (passed : Bool)
  | raises (msg : String)
deriving DecidableEq, Repr

/-- Environment: the runner verdict per test-case id, which cache-write
attempts fail (by global attempt index), and whether the MongoDB insert
fails. -/
structure Env where
  runner : Nat → RunnerOutcome
  cacheFail : Nat → Bool
  mongoFail : Bool

/-- Advance the clock by one tick. -/
def tick (s : Sys) : Sys := { s with clock := s.clock + 1 }

/-- Redis `set` with replace semantics. -/
def cacheSet (c : List (Nat × Snapshot)) (key : Nat) (value : Snapshot) :
    List (Nat × Snapshot) :=
  (key, value) :: c.filter (fun p => p.1 != key)

/-- Redis `delete`. -/
def cacheDelete (c : List (Nat × Snapshot)) (key : Nat) : List (Nat × Snapshot) :=
  c.filter (fun p => p.1 != key)

/-- Redis `get`. -/
def cacheGet (c : List (Nat × Snapshot)) (key : Nat) : Option Snapshot :=
  (c.find? (fun p => p.1 == key)).map Prod.snd

/-- State after a successful cache write: the attempt counter advances and the
key's snapshot is replaced. -/
def afterCacheWrite (s : Sys) (key : Nat) (value : Snapshot) : Sys :=
  { s with cacheWrites := s.cacheWrites + 1, cache := cacheSet s.cache key value }

/-- `RedisCache.set_json`: may raise (injected via `Env.cacheFail` on the
global attempt index); on success replaces the key's snapshot. -/
def RedisCache.set_json (env : Env) (s : Sys) (key : Nat) (value : Snapshot) :
    Sys × Option String :=
  if env.cacheFail s.cacheWrites then
    ({ s with cacheWrites := s.cacheWrites + 1 }, some "cache write failed")
  else (afterCacheWrite s key value, none)

/-- `select(TestExecution).where(TestExecution.id == execution_id)` with
`scalar_one_or_none`. -/
def findExecution (db : DB) (execution_id : Nat) : Option TestExecution :=
  db.executions.find? (fun e => e.id == execution_id)

/-- In-place mutation of an execution row followed by flush/commit. -/
def updateExecution (db : DB) (execution_id : Nat) (f : TestExecution → TestExecution) : DB :=
  { db with executions := db.executions.map (fun e => if e.id == execution_id then f e else e) }

/-- Persist the current in-memory state of an execution ORM object. -/
def persistExec (s : Sys) (execution : TestExecution) : Sys :=
  { s with db := updateExecution s.db execution.id (fun _ => execution) }

/-- `select(TestCaseResult).where(TestCaseResult.execution_id == execution.id)`. -/
def resultsFor (db : DB) (execution_id : Nat) : List TestCaseResult :=
  db.results.filter (fun r => r.execution_id == execution_id)

/-- `sum(1 for r in results if r.status == st)`. -/
def countStatus (rs : List TestCaseResult) (st : TestResultStatus) : Nat :=
  (rs.filter (fun r => r.status == st)).length

/-- Rounding to two decimal places (`round(x, 2)`). -/
def round2 (x : ℚ) : ℚ := ((round (x * 100) : ℤ) : ℚ) / 100

/-- The `pass_rate` property of `TestExecution`
(`app/models/execution.py`, lines 180-186). -/
def TestExecution.pass_rate (e : TestExecution) : ℚ :=
  let executed := e.passed_tests + e.failed_tests
  if executed = 0 then 0
  else round2 (((e.passed_tests : ℚ) / (executed : ℚ)) * 100)

/-- The spec's own wording of the pass rate, for comparison with the source's
`TestExecution.pass_rate`: "passed / (passed + failed) × 100, rounded to 2
decimal places; 0 when the denominator is 0." -/
def specPassRate (passed failed : Nat) : ℚ :=
  if passed + failed = 0 then 0
  else round2 ((passed : ℚ) / ((passed + failed : Nat) : ℚ) * 100)

/-- `_get_test_cases_for_execution`: test cases of the referenced suite, else
all active test cases of the project. -/
def _get_test_cases_for_execution (db : DB) (execution : TestExecution) : List TestCase :=
  match execution.test_suite_id with
  | some suite_id => db.test_cases.filter (fun tc => tc.suite_ids.contains suite_id)
  | none =>
      db.test_cases.filter
        (fun tc => tc.project_id == execution.project_id && tc.status == "active")

/-- The finalized `TestCaseResult` produced by `_execute_single_test` for one
test case: the row is created in PENDING and flushed, then updated in place to
its terminal state inside the try/except, so the persisted row is this
finalized one.  `rid` is the primary key assigned at flush, `start_time` and
`completed_at` the two `datetime.utcnow()` reads. -/
def singleTestResult (env : Env) (execution : TestExecution) (test_case : TestCase)
    (rid start_time completed_at : Nat) : TestCaseResult :=
  let base : TestCaseResult :=
    { id := rid, execution_id := execution.id, test_case_id := test_case.id,
      status := TestResultStatus.pending, started_at := some start_time,
      completed_at := none, duration_seconds := none, error_message := none,
      actual_result := none, environment := execution.environment }
  match env.runner test_case.id with
  | RunnerOutcome.ok passed =>
      { base with
        status := if passed then TestResultStatus.passed else TestResultStatus.failed,
        completed_at := some completed_at,
        duration_seconds := some ((completed_at : Int) - (start_time : Int)),
        error_message := if passed then none else some "Test assertion failed",
        actual_result :=
          some (if passed then "All assertions passed"
                else "Expected value did not match actual value") }
  | RunnerOutcome.raises msg =>
      { base with
        status := TestResultStatus.error,
        error_message := some msg,
        completed_at := some completed_at,
        duration_seconds := some ((completed_at : Int) - (start_time : Int)) }

/-- `_execute_single_test`: records a result row for the test case; a runner
exception is caught inside and converted to an ERROR result, so this function
always returns normally with exactly one new persisted row. -/
def _execute_single_test (env : Env) (s : Sys) (execution : TestExecution)
    (test_case : TestCase) : Sys × TestCaseResult :=
  let start_time := s.clock
  let s1 := tick s
  let completed_at := s1.clock
  let s2 := tick s1
  let result := singleTestResult env execution test_case s2.db.next_result_id
      start_time completed_at
  ({ s2 with
      db := { s2.db with
        results := s2.db.results ++ [result],
        next_result_id := s2.db.next_result_id + 1 } },
   result)

/-- Outcome of the per-test-case loop: the accumulated results, or an
exception escaping a progress-cache write. -/
inductive TryLoop
  | done (results : List TestCaseResult)
  | exc (msg : String)
deriving Repr

/-- The `for idx, test_case in enumerate(test_cases)` loop of
`_execute_test_suite_async` (lines 122-143): run one test case, then write the
progress snapshot; a snapshot-write exception escapes the loop (it is inside
the function's outer try block, not caught per-iteration). -/
def runTestLoop (env : Env) (execution : TestExecution) (total : Nat) :
    List TestCase → Nat → Sys → List TestCaseResult → Sys × TryLoop
  | [], _, s, results => (s, TryLoop.done results)
  | test_case :: rest, idx, s, results =>
      let (s1, result) := _execute_single_test env s execution test_case
      let progress : ℚ := (((idx + 1 : Nat) : ℚ) / ((total : Nat) : ℚ)) * 100
      match RedisCache.set_json env s1 execution.id
          (Snapshot.runningProgress progress (idx + 1) total) with
      | (s2, some e) => (s2, TryLoop.exc e)
      | (s2, none) => runTestLoop env execution total rest (idx + 1) s2 (results ++ [result])

/-- `_update_execution_summary`: authoritative recount of the aggregate
counters from all persisted result rows of this execution. -/
def _update_execution_summary (db : DB) (execution : TestExecution) :
    DB × TestExecution :=
  let results := resultsFor db execution.id
  let execution1 := { execution with
    passed_tests := countStatus results TestResultStatus.passed,
    failed_tests := countStatus results TestResultStatus.failed,
    skipped_tests := countStatus results TestResultStatus.skipped,
    blocked_tests := countStatus results TestResultStatus.blocked,
    error_tests := countStatus results TestResultStatus.error }
  (updateExecution db execution.id (fun _ => execution1), execution1)

/-- `_store_execution_logs`: insert one MongoDB document; any exception is
caught and only printed, so a failing insert leaves the state unchanged. -/
def _store_execution_logs (env : Env) (s : Sys) (execution_id : Nat)
    (results : List TestCaseResult) : Sys :=
  if env.mongoFail then s
  else
    let log_entry : LogEntry :=
      { execution_id := execution_id, timestamp := s.clock,
        results_count := results.length,
        results := results.map (fun r =>
          { test_case_id := r.test_case_id, status := r.status,
            duration := r.duration_seconds, error := r.error_message }) }
    let s1 := tick s
    { s1 with logs := s1.logs ++ [log_entry] }

/-- The execution row as mutated by lines 91-94 of
`_execute_test_suite_async`: status RUNNING, `started_at` stamped,
dispatcher task id recorded — with no guard on the current status. -/
def markRunningExec (s : Sys) (execution : TestExecution) (task_id : String) :
    TestExecution :=
  { execution with
    status := ExecutionStatus.running,
    started_at := some s.clock,
    celery_task_id := some task_id }

/-- Lines 91-95 of `_execute_test_suite_async`: unconditionally set the
execution to RUNNING, stamp `started_at`, record the dispatcher task id, and
commit — there is no guard on the execution's current status. -/
def markRunning (s : Sys) (execution : TestExecution) (task_id : String) :
    Sys × TestExecution :=
  (persistExec (tick s) (markRunningExec s execution task_id),
   markRunningExec s execution task_id)

/-- Return dict of `_execute_test_suite_async`, one constructor per shape. -/
inductive ExecRet
  | notFound
  | emptyOk
  | completedOk (execution_id total_tests passed failed : Nat) (duration : Option Int)
deriving DecidableEq, Repr

/-- Outcome of the try block of `_execute_test_suite_async`. -/
inductive TryOutcome
  | ret (r : ExecRet)
  | exc (msg : String)
deriving Repr

/-- The try block of `_execute_test_suite_async` (lines 108-178): resolve the
target set, handle the empty set, run the loop, recount, mark COMPLETED, write
the final snapshot (inside the try: a failure here escapes to the except
handler), then best-effort store the MongoDB log. -/
def tryRunBody (env : Env) (s : Sys) (execution : TestExecution) :
    Sys × TestExecution × TryOutcome :=
  let test_cases := _get_test_cases_for_execution s.db execution
  if test_cases.isEmpty then
    let completed_at := s.clock
    let s1 := tick s
    let execution1 := { execution with
      status := ExecutionStatus.completed,
      completed_at := some completed_at,
      total_tests := 0 }
    let s2 := persistExec s1 execution1
    (s2, execution1, TryOutcome.ret ExecRet.emptyOk)
  else
    let execution1 := { execution with total_tests := test_cases.length }
    let s1 := persistExec s execution1
    match runTestLoop env execution1 test_cases.length test_cases 0 s1 [] with
    | (s2, TryLoop.exc e) => (s2, execution1, TryOutcome.exc e)
    | (s2, TryLoop.done results) =>
        let (db3, execution2) := _update_execution_summary s2.db execution1
        let s3 := { s2 with db := db3 }
        let completed_at := s3.clock
        let s4 := tick s3
        let execution3 := { execution2 with
          status := ExecutionStatus.completed,
          completed_at := some completed_at,
          duration_seconds :=
            some ((completed_at : Int) - ((execution2.started_at.getD 0 : Nat) : Int)) }
        let s5 := persistExec s4 execution3
        match RedisCache.set_json env s5 execution.id
            (Snapshot.completedSnap execution3.completed_at execution3.duration_seconds
              execution3.pass_rate) with
        | (s6, some e) => (s6, execution3, TryOutcome.exc e)
        | (s6, none) =>
            let s7 := _store_execution_logs env s6 execution.id results
            (s7, execution3,
              TryOutcome.ret (ExecRet.completedOk execution.id execution3.total_tests
                execution3.passed_tests execution3.failed_tests execution3.duration_seconds))

/-- The except branch of `_execute_test_suite_async` (lines 180-195): mark the
execution FAILED with the captured error, write the FAILED snapshot, and
re-raise. -/
def exceptHandler (env : Env) (s : Sys) (execution : TestExecution)
    (execution_id : Nat) (e : String) : Sys × Except String ExecRet :=
  let completed_at := s.clock
  let s1 := tick s
  let execution1 := { execution with
    status := ExecutionStatus.failed,
    error_message := some e,
    completed_at := some completed_at }
  let s2 := persistExec s1 execution1
  match RedisCache.set_json env s2 execution_id (Snapshot.failedSnap e) with
  | (s3, some e2) => (s3, Except.error e2)
  | (s3, none) => (s3, Except.error e)

/-- The try/except construct of `_execute_test_suite_async`: run the try block
and route an escaping exception to the except branch. -/
def runBody (env : Env) (s : Sys) (execution : TestExecution) (execution_id : Nat) :
    Sys × Except String ExecRet :=
  match tryRunBody env s execution with
  | (s3, _, TryOutcome.ret r) => (s3, Except.ok r)
  | (s3, execution2, TryOutcome.exc e) => exceptHandler env s3 execution2 execution_id e

/-- `_execute_test_suite_async`: the orchestration entry point.  Returns the
final state together with the normal return value or the escaping exception
message (`Except.error` = the coroutine raised; every committed write made
before the raise is visible in the returned state, as in the source). -/
def _execute_test_suite_async (env : Env) (s : Sys) (execution_id : Nat)
    (task_id : String) : Sys × Except String ExecRet :=
  match findExecution s.db execution_id with
  | none => (s, Except.ok ExecRet.notFound)
  | some execution =>
    let (s1, execution1) := markRunning s execution task_id
    match RedisCache.set_json env s1 execution_id
        (Snapshot.runningInit execution1.started_at 0) with
    | (s2, some e) => (s2, Except.error e)
    | (s2, none) => runBody env s2 execution1 execution_id

/-- Return dict of `_cancel_execution_async`, with the same keys as the
source's dicts. -/
structure CancelResponse where
  success : Bool
  error : Option String
  execution_id : Option Nat
deriving DecidableEq, Repr

/-- `_cancel_execution_async`: cancel only from RUNNING or QUEUED; otherwise
return a response without touching any state. -/
def _cancel_execution_async (s : Sys) (execution_id : Nat) : Sys × CancelResponse :=
  match findExecution s.db execution_id with
  | none =>
      (s, { success := false, error := some "Execution not found", execution_id := none })
  | some execution =>
      if execution.status = ExecutionStatus.running ∨
          execution.status = ExecutionStatus.queued then
        let completed_at := s.clock
        let s1 := tick s
        let execution1 := { execution with
          status := ExecutionStatus.cancelled,
          completed_at := some completed_at }
        let s2 := persistExec s1 execution1
        let s3 := { s2 with cache := cacheDelete s2.cache execution_id }
        (s3, { success := true, error := none, execution_id := some execution_id })
      else
        (s, { success := false, error := some "Execution is not running",
              execution_id := none })

/-! ## Concrete fixtures

A one-project record store with a single active test case and a single
execution, used to evaluate the engine at concrete inputs. -/

/-- An active test case (id 10) of project 1, in no suite. -/
def tcActive : TestCase := { id := 10, project_id := 1, status := "active", suite_ids := [] }

/-- A freshly created execution row (id 1), as the API layer creates it:
status QUEUED, all counters zero. -/
def execFresh : TestExecution :=
  { id := 1, project_id := 1, test_suite_id := none,
    status := ExecutionStatus.queued, environment := some "staging", started_at := none,
    completed_at := none, duration_seconds := none, total_tests := 0, passed_tests := 0,
    failed_tests := 0, skipped_tests := 0, blocked_tests := 0, error_tests := 0,
    error_message := none, celery_task_id := some "t0" }

/-- Fresh state: one queued execution, one active test case, no results. -/
def sysFresh : Sys :=
  { db := { executions := [execFresh], test_cases := [tcActive], results := [],
            next_result_id := 1 },
    cache := [], logs := [], clock := 0, cacheWrites := 0 }

/-- Environment whose runner passes every test case and whose stores never
fail. -/
def envAllPass : Env :=
  { runner := fun _ => RunnerOutcome.ok true, cacheFail := fun _ => false,
    mongoFail := false }

/-- Environment whose third cache write (global attempt index 2 — the final
COMPLETED snapshot write for a one-test-case run) raises. -/
def envCacheFailAt2 : Env := { envAllPass with cacheFail := fun k => k == 2 }

/-- Environment whose MongoDB insert raises (and is swallowed). -/
def envMongoFail : Env := { envAllPass with mongoFail := true }

/-- Environment whose runner raises "boom" for every test case. -/
def envRaise : Env := { envAllPass with runner := fun _ => RunnerOutcome.raises "boom" }

/-- State after one full successful run of execution 1 over `sysFresh`. -/
def sysAfterRun : Sys := (_execute_test_suite_async envAllPass sysFresh 1 "t1").1

/-- Fresh state whose only test case is not active, so the project target set
is empty. -/
def sysNoActive : Sys :=
  { sysFresh with
    db := { sysFresh.db with test_cases := [{ tcActive with status := "draft" }] } }

/-- Fresh state whose execution is already RUNNING. -/
def sysRunning : Sys :=
  { sysFresh with
    db := { sysFresh.db with
            executions := [{ execFresh with status := ExecutionStatus.running }] } }

/-- An execution already in the terminal state COMPLETED, with counters. -/
def execDone : TestExecution :=
  { execFresh with
    status := ExecutionStatus.completed, started_at := some 0, completed_at := some 3,
    duration_seconds := some 3, total_tests := 3, passed_tests := 2, failed_tests := 1 }

/-- State holding only the terminal execution `execDone`. -/
def sysDone : Sys :=
  { sysFresh with db := { sysFresh.db with executions := [execDone] } }

instance : DecidableEq (Except String ExecRet) := fun a b =>
  match a, b with
  | Except.ok x, Except.ok y => decidable_of_iff (x = y) (by simp)
  | Except.error x, Except.error y => decidable_of_iff (x = y) (by simp)
  | Except.ok _, Except.error _ => Decidable.isFalse (by simp)
  | Except.error _, Except.ok _ => Decidable.isFalse (by simp)

/-! ## Specification predicates -/

/-- The result row recorded for a test case agrees with the unit-of-work
runner's outcome for it: PASSED/FAILED mirroring the verdict, or ERROR with
the raised message captured. -/
def reflectsRunner (env : Env) (tc : TestCase) (r : TestCaseResult) : Prop :=
  match env.runner tc.id with
  | RunnerOutcome.ok passed =>
      r.status = (if passed then TestResultStatus.passed else TestResultStatus.failed)
      ∧ r.error_message = (if passed then none else some "Test assertion failed")
  | RunnerOutcome.raises msg =>
      r.status = TestResultStatus.error ∧ r.error_message = some msg

/-- A well-formed result row produced by the loop for execution `eid` and test
case `tc`: right foreign keys, a terminal status, timing recorded, and content
matching the runner outcome. -/
def GoodResult (env : Env) (eid : Nat) (tc : TestCase) (r : TestCaseResult) : Prop :=
  r.execution_id = eid ∧ r.test_case_id = tc.id
  ∧ (r.status = TestResultStatus.passed ∨ r.status = TestResultStatus.failed
      ∨ r.status = TestResultStatus.error)
  ∧ r.completed_at.isSome ∧ r.duration_seconds.isSome
  ∧ reflectsRunner env tc r

/-! ## Structural lemmas -/

theorem _execute_single_test_eq (env : Env) (s : Sys) (execution : TestExecution)
    (tc : TestCase) :
    _execute_single_test env s execution tc =
      ({ s with
         clock := s.clock + 2,
         db := { s.db with
                 results := s.db.results ++
                   [singleTestResult env execution tc s.db.next_result_id s.clock (s.clock + 1)],
                 next_result_id := s.db.next_result_id + 1 } },
       singleTestResult env execution tc s.db.next_result_id s.clock (s.clock + 1)) := rfl

theorem good_singleTestResult (env : Env) (execution : TestExecution) (tc : TestCase)
    (rid t0 t1 : Nat) :
    GoodResult env execution.id tc (singleTestResult env execution tc rid t0 t1) := by
  unfold GoodResult reflectsRunner singleTestResult
  cases h : env.runner tc.id with
  | ok passed => cases passed <;> simp [h]
  | raises msg => simp [h]

theorem forall₂_mem_right {α β : Type} {P : α → β → Prop} {l1 : List α} {l2 : List β}
    (h : List.Forall₂ P l1 l2) : ∀ b ∈ l2, ∃ a ∈ l1, P a b := by
  induction h with
  | nil => intro b hb; cases hb
  | cons hab _ ih =>
      intro b hb
      rcases List.mem_cons.mp hb with rfl | hb'
      · exact ⟨_, List.mem_cons_self _ _, hab⟩
      · rcases ih b hb' with ⟨a, ha, hPa⟩
        exact ⟨a, List.mem_cons_of_mem _ ha, hPa⟩

theorem forall₂_mem_left {α β : Type} {P : α → β → Prop} {l1 : List α} {l2 : List β}
    (h : List.Forall₂ P l1 l2) : ∀ a ∈ l1, ∃ b ∈ l2, P a b := by
  induction h with
  | nil => intro a ha; cases ha
  | cons hab _ ih =>
      intro a ha
      rcases List.mem_cons.mp ha with rfl | ha'
      · exact ⟨_, List.mem_cons_self _ _, hab⟩
      · rcases ih a ha' with ⟨b, hb, hPb⟩
        exact ⟨b, List.mem_cons_of_mem _ hb, hPb⟩

theorem countStatus_append (a b : List TestCaseResult) (st : TestResultStatus) :
    countStatus (a ++ b) st = countStatus a st + countStatus b st := by
  simp [countStatus, List.filter_append]

theorem countStatus_cons (r : TestCaseResult) (rest : List TestCaseResult)
    (st : TestResultStatus) :
    countStatus (r :: rest) st =
      (if r.status = st then 1 else 0) + countStatus rest st := by
  by_cases h : r.status = st <;> simp [countStatus, List.filter_cons, h] <;> omega

theorem countStatus_sum_eq_length (rs : List TestCaseResult)
    (h : ∀ r ∈ rs, r.status ≠ TestResultStatus.pending) :
    countStatus rs TestResultStatus.passed + countStatus rs TestResultStatus.failed
      + countStatus rs TestResultStatus.skipped + countStatus rs TestResultStatus.blocked
      + countStatus rs TestResultStatus.error = rs.length := by
  induction rs with
  | nil => simp [countStatus]
  | cons r rest ih =>
      have hr := h r (List.mem_cons_self _ _)
      have ih' := ih (fun x hx => h x (List.mem_cons_of_mem _ hx))
      rw [countStatus_cons, countStatus_cons, countStatus_cons, countStatus_cons,
        countStatus_cons, List.length_cons]
      cases hst : r.status <;> simp [hst] at hr ⊢ <;> omega

theorem resultsFor_append (a b : List TestCaseResult) (rest : DB) (eid : Nat) :
    resultsFor { rest with results := a ++ b } eid =
      resultsFor { rest with results := a } eid ++ resultsFor { rest with results := b } eid := by
  simp [resultsFor, List.filter_append]

/-- Effect of the per-test-case loop when no progress-cache write fails: it
returns normally with one new persisted result row per target test case, each
matching its runner outcome, and touches neither the execution rows, the
test-case rows, nor the log store. -/
theorem runTestLoop_noCacheFail (env : Env) (hcf : ∀ k, env.cacheFail k = false)
    (execution : TestExecution) (total : Nat) :
    ∀ (tcs : List TestCase) (idx : Nat) (s : Sys) (acc : List TestCaseResult),
      ∃ s1 newRs,
        runTestLoop env execution total tcs idx s acc = (s1, TryLoop.done (acc ++ newRs))
        ∧ s1.db.results = s.db.results ++ newRs
        ∧ s1.db.executions = s.db.executions
        ∧ s1.db.test_cases = s.db.test_cases
        ∧ s1.logs = s.logs
        ∧ List.Forall₂ (GoodResult env execution.id) tcs newRs := by
  intro tcs
  induction tcs with
  | nil =>
      intro idx s acc
      exact ⟨s, [], by simp [runTestLoop]⟩
  | cons tc rest ih =>
      intro idx s acc
      rcases ih (idx + 1)
          (afterCacheWrite
            ({ s with
               clock := s.clock + 2,
               db := { s.db with
                       results := s.db.results ++
                         [singleTestResult env execution tc s.db.next_result_id s.clock
                           (s.clock + 1)],
                       next_result_id := s.db.next_result_id + 1 } })
            execution.id
            (Snapshot.runningProgress ((((idx + 1 : Nat) : ℚ) / ((total : Nat) : ℚ)) * 100)
              (idx + 1) total))
          (acc ++ [singleTestResult env execution tc s.db.next_result_id s.clock (s.clock + 1)])
        with ⟨s1, newRs, heq, hres, hexe, htcs, hlogs, hfa⟩
      refine ⟨s1,
        singleTestResult env execution tc s.db.next_result_id s.clock (s.clock + 1) :: newRs,
        ?_, ?_, ?_, ?_, ?_, ?_⟩
      · rw [show runTestLoop env execution total (tc :: rest) idx s acc =
            runTestLoop env execution total rest (idx + 1)
              (afterCacheWrite
                ({ s with
                   clock := s.clock + 2,
                   db := { s.db with
                           results := s.db.results ++
                             [singleTestResult env execution tc s.db.next_result_id s.clock
                               (s.clock + 1)],
                           next_result_id := s.db.next_result_id + 1 } })
                execution.id
                (Snapshot.runningProgress
                  ((((idx + 1 : Nat) : ℚ) / ((total : Nat) : ℚ)) * 100) (idx + 1) total))
              (acc ++ [singleTestResult env execution tc s.db.next_result_id s.clock
                (s.clock + 1)])
          from by simp [runTestLoop, _execute_single_test_eq, RedisCache.set_json, hcf]]
        rw [heq]
        simp
      · rw [hres]; simp [afterCacheWrite]
      · rw [hexe]; simp [afterCacheWrite]
      · rw [htcs]; simp [afterCacheWrite]
      · rw [hlogs]; simp [afterCacheWrite]
      · exact List.Forall₂.cons (good_singleTestResult env execution tc _ _ _) hfa

theorem findExecution_singleton (db : DB) (e : TestExecution) (hexe : db.executions = [e]) :
    findExecution db e.id = some e := by
  simp [findExecution, hexe]

theorem findExecution_singleton2 (db : DB) (e : TestExecution) (eid : Nat)
    (hexe : db.executions = [e]) (hid : e.id = eid) :
    findExecution db eid = some e := by
  simp [findExecution, hexe, hid]

theorem updateExecution_singleton (db : DB) (e : TestExecution)
    (f : TestExecution → TestExecution) (hexe : db.executions = [e]) :
    (updateExecution db e.id f).executions = [f e] := by
  simp [updateExecution, hexe]

/-- The MongoDB log store and the relational db are independent: storing logs
never changes the relational db. -/
theorem store_logs_db (env : Env) (s : Sys) (eid : Nat) (rs : List TestCaseResult) :
    (_store_execution_logs env s eid rs).db = s.db := by
  unfold _store_execution_logs; split <;> rfl

/-- The target-set resolution reads only the test-case table and the
execution's suite/project references. -/
theorem getTestCases_congr (db db' : DB) (e e' : TestExecution)
    (htc : db'.test_cases = db.test_cases) (hs : e'.test_suite_id = e.test_suite_id)
    (hp : e'.project_id = e.project_id) :
    _get_test_cases_for_execution db' e' = _get_test_cases_for_execution db e := by
  unfold _get_test_cases_for_execution
  rw [hs, htc, hp]

/-- Effect of the try block of the orchestration entry point on a non-empty
target set, when no cache write fails. -/
theorem tryRunBody_nonempty (env : Env) (hcf : ∀ k, env.cacheFail k = false)
    (s : Sys) (e1 : TestExecution) (hexe : s.db.executions = [e1])
    (hne : _get_test_cases_for_execution s.db e1 ≠ []) :
    ∃ s7 newRs e4,
      tryRunBody env s e1 =
        (s7, e4, TryOutcome.ret (ExecRet.completedOk e1.id e4.total_tests e4.passed_tests
          e4.failed_tests e4.duration_seconds))
      ∧ s7.db.executions = [e4]
      ∧ s7.db.results = s.db.results ++ newRs
      ∧ s7.db.test_cases = s.db.test_cases
      ∧ (env.mongoFail = true → s7.logs = s.logs)
      ∧ (env.mongoFail = false → ∃ le, s7.logs = s.logs ++ [le]
          ∧ le.execution_id = e1.id ∧ le.results_count = newRs.length)
      ∧ List.Forall₂ (GoodResult env e1.id) (_get_test_cases_for_execution s.db e1) newRs
      ∧ e4.id = e1.id
      ∧ e4.status = ExecutionStatus.completed
      ∧ e4.total_tests = (_get_test_cases_for_execution s.db e1).length
      ∧ e4.passed_tests = countStatus (resultsFor s7.db e1.id) TestResultStatus.passed
      ∧ e4.failed_tests = countStatus (resultsFor s7.db e1.id) TestResultStatus.failed
      ∧ e4.skipped_tests = countStatus (resultsFor s7.db e1.id) TestResultStatus.skipped
      ∧ e4.blocked_tests = countStatus (resultsFor s7.db e1.id) TestResultStatus.blocked
      ∧ e4.error_tests = countStatus (resultsFor s7.db e1.id) TestResultStatus.error
      ∧ e4.completed_at.isSome
      ∧ e4.started_at = e1.started_at
      ∧ e4.celery_task_id = e1.celery_task_id
      ∧ e4.test_suite_id = e1.test_suite_id
      ∧ e4.project_id = e1.project_id := by
  rcases runTestLoop_noCacheFail env hcf
      { e1 with total_tests := (_get_test_cases_for_execution s.db e1).length }
      (_get_test_cases_for_execution s.db e1).length
      (_get_test_cases_for_execution s.db e1) 0
      (persistExec s { e1 with total_tests := (_get_test_cases_for_execution s.db e1).length })
      []
    with ⟨sL, newRs, heq, hres, hexeL, htcsL, hlogsL, hfa⟩
  unfold tryRunBody
  rw [if_neg (by simpa [List.isEmpty_iff] using hne)]
  dsimp only
  rw [heq]
  dsimp only
  simp only [_update_execution_summary]
  simp only [RedisCache.set_json, hcf]
  simp only [Bool.false_eq_true, if_false, List.nil_append]
  refine ⟨_, newRs, _, rfl, ?_, ?_, ?_, ?_, ?_, ?_, rfl, rfl, rfl, ?_, ?_, ?_, ?_, ?_,
    rfl, rfl, rfl, rfl, rfl⟩
  · rw [store_logs_db]
    have h1 : sL.db.executions =
        [{ e1 with total_tests := (_get_test_cases_for_execution s.db e1).length }] := by
      rw [hexeL]
      simp [persistExec, updateExecution, hexe]
    simp [afterCacheWrite, persistExec, updateExecution, tick, h1]
  · rw [store_logs_db]
    exact hres
  · rw [store_logs_db]
    exact htcsL
  · intro h
    simp only [_store_execution_logs, h, if_true]
    exact hlogsL
  · intro h
    simp only [_store_execution_logs, h, Bool.false_eq_true, if_false]
    exact ⟨_, by rw [show sL.logs = s.logs from hlogsL]; rfl, rfl, by simp⟩
  · exact hfa
  · rw [store_logs_db]; rfl
  · rw [store_logs_db]; rfl
  · rw [store_logs_db]; rfl
  · rw [store_logs_db]; rfl
  · rw [store_logs_db]; rfl

theorem set_json_ok (env : Env) (s : Sys) (key : Nat) (v : Snapshot)
    (h : env.cacheFail s.cacheWrites = false) :
    RedisCache.set_json env s key v = (afterCacheWrite s key v, none) := by
  simp [RedisCache.set_json, h]

/-- Effect of the orchestration entry point on a non-empty target set when no
cache write fails, for any initial status of the execution row. -/
theorem executeSuite_nonempty (env : Env) (hcf : ∀ k, env.cacheFail k = false)
    (s : Sys) (e0 : TestExecution) (task_id : String)
    (hexe : s.db.executions = [e0])
    (hne : _get_test_cases_for_execution s.db e0 ≠ []) :
    ∃ sF newRs eF,
      _execute_test_suite_async env s e0.id task_id =
        (sF, Except.ok (ExecRet.completedOk e0.id eF.total_tests eF.passed_tests
          eF.failed_tests eF.duration_seconds))
      ∧ sF.db.executions = [eF]
      ∧ findExecution sF.db e0.id = some eF
      ∧ sF.db.results = s.db.results ++ newRs
      ∧ sF.db.test_cases = s.db.test_cases
      ∧ (env.mongoFail = true → sF.logs = s.logs)
      ∧ (env.mongoFail = false → ∃ le, sF.logs = s.logs ++ [le]
          ∧ le.execution_id = e0.id ∧ le.results_count = newRs.length)
      ∧ List.Forall₂ (GoodResult env e0.id) (_get_test_cases_for_execution s.db e0) newRs
      ∧ eF.id = e0.id
      ∧ eF.status = ExecutionStatus.completed
      ∧ eF.total_tests = (_get_test_cases_for_execution s.db e0).length
      ∧ eF.passed_tests = countStatus (resultsFor sF.db e0.id) TestResultStatus.passed
      ∧ eF.failed_tests = countStatus (resultsFor sF.db e0.id) TestResultStatus.failed
      ∧ eF.skipped_tests = countStatus (resultsFor sF.db e0.id) TestResultStatus.skipped
      ∧ eF.blocked_tests = countStatus (resultsFor sF.db e0.id) TestResultStatus.blocked
      ∧ eF.error_tests = countStatus (resultsFor sF.db e0.id) TestResultStatus.error
      ∧ eF.completed_at.isSome
      ∧ eF.started_at = some s.clock
      ∧ eF.celery_task_id = some task_id
      ∧ eF.test_suite_id = e0.test_suite_id
      ∧ eF.project_id = e0.project_id := by
  have hexe2 : (afterCacheWrite (persistExec (tick s) (markRunningExec s e0 task_id)) e0.id
      (Snapshot.runningInit (markRunningExec s e0 task_id).started_at 0)).db.executions =
      [markRunningExec s e0 task_id] := by
    simp [afterCacheWrite, persistExec, tick, markRunningExec, updateExecution, hexe]
  have hne2 : _get_test_cases_for_execution
      (afterCacheWrite (persistExec (tick s) (markRunningExec s e0 task_id)) e0.id
        (Snapshot.runningInit (markRunningExec s e0 task_id).started_at 0)).db
      (markRunningExec s e0 task_id) ≠ [] := by
    rw [getTestCases_congr s.db
      (afterCacheWrite (persistExec (tick s) (markRunningExec s e0 task_id)) e0.id
        (Snapshot.runningInit (markRunningExec s e0 task_id).started_at 0)).db
      e0 (markRunningExec s e0 task_id) rfl rfl rfl]
    exact hne
  rcases tryRunBody_nonempty env hcf _ _ hexe2 hne2 with
    ⟨s7, newRs, e4, htb, hB, hC, hD, hE, hF, hG, hid, hst, htot, hp, hf, hsk, hbl, herr,
      hcomp, hstart, htask, hsuite, hproj⟩
  unfold _execute_test_suite_async
  rw [findExecution_singleton s.db e0 hexe]
  dsimp only
  rw [show markRunning s e0 task_id =
      (persistExec (tick s) (markRunningExec s e0 task_id), markRunningExec s e0 task_id)
    from rfl]
  dsimp only
  rw [set_json_ok env _ _ _ (hcf _)]
  dsimp only
  unfold runBody
  rw [htb]
  exact ⟨s7, newRs, e4, rfl, hB, findExecution_singleton2 s7.db e4 e0.id hB hid, hC, hD,
    hE, hF, hG, hid, hst, htot, hp, hf, hsk, hbl, herr, hcomp, hstart, htask, hsuite, hproj⟩

/-- Effect of the orchestration entry point on an empty target set, when no
cache write fails: the execution completes immediately with total 0, no result
row is created, and nothing is ever written to the log store. -/
theorem executeSuite_empty (env : Env) (hcf : ∀ k, env.cacheFail k = false)
    (s : Sys) (e0 : TestExecution) (task_id : String)
    (hexe : s.db.executions = [e0])
    (hempty : _get_test_cases_for_execution s.db e0 = []) :
    ∃ sF,
      _execute_test_suite_async env s e0.id task_id = (sF, Except.ok ExecRet.emptyOk)
      ∧ sF.db.executions =
          [{ e0 with
             status := ExecutionStatus.completed,
             started_at := some s.clock,
             celery_task_id := some task_id,
             completed_at := some (s.clock + 1),
             total_tests := 0 }]
      ∧ sF.db.results = s.db.results
      ∧ sF.db.test_cases = s.db.test_cases
      ∧ sF.logs = s.logs := by
  unfold _execute_test_suite_async
  rw [findExecution_singleton s.db e0 hexe]
  dsimp only
  rw [show markRunning s e0 task_id =
      (persistExec (tick s) (markRunningExec s e0 task_id), markRunningExec s e0 task_id)
    from rfl]
  dsimp only
  rw [set_json_ok env _ _ _ (hcf _)]
  dsimp only
  unfold runBody tryRunBody
  rw [show _get_test_cases_for_execution
      (afterCacheWrite (persistExec (tick s) (markRunningExec s e0 task_id)) e0.id
        (Snapshot.runningInit (markRunningExec s e0 task_id).started_at 0)).db
      (markRunningExec s e0 task_id) = [] from by
    rw [getTestCases_congr s.db
      (afterCacheWrite (persistExec (tick s) (markRunningExec s e0 task_id)) e0.id
        (Snapshot.runningInit (markRunningExec s e0 task_id).started_at 0)).db
      e0 (markRunningExec s e0 task_id) rfl rfl rfl]
    exact hempty]
  rw [if_pos (by rfl)]
  dsimp only
  refine ⟨_, rfl, ?_, rfl, rfl, rfl⟩
  simp [persistExec, tick, afterCacheWrite, markRunningExec, updateExecution, hexe]

theorem resultsFor_def (db : DB) (eid : Nat) :
    resultsFor db eid = db.results.filter (fun r => r.execution_id == eid) := rfl

theorem filter_execution_id_eq_self (l : List TestCaseResult) (eid : Nat)
    (h : ∀ r ∈ l, r.execution_id = eid) :
    l.filter (fun r => r.execution_id == eid) = l := by
  rw [List.filter_eq_self]
  intro r hr
  simp [h r hr]

theorem goodResults_execution_id (env : Env) (eid : Nat) (tcs : List TestCase)
    (newRs : List TestCaseResult) (hfa : List.Forall₂ (GoodResult env eid) tcs newRs) :
    ∀ r ∈ newRs, r.execution_id = eid := by
  intro r hr
  rcases forall₂_mem_right hfa r hr with ⟨tc, _, hg⟩
  exact hg.1

theorem goodResults_not_pending (env : Env) (eid : Nat) (tcs : List TestCase)
    (newRs : List TestCaseResult) (hfa : List.Forall₂ (GoodResult env eid) tcs newRs) :
    ∀ r ∈ newRs, r.status ≠ TestResultStatus.pending := by
  intro r hr
  rcases forall₂_mem_right hfa r hr with ⟨tc, _, hg⟩
  rcases hg.2.2.1 with h | h | h <;> simp [h]

theorem cacheGet_delete (c : List (Nat × Snapshot)) (k : Nat) :
    cacheGet (cacheDelete c k) k = none := by
  have h : List.find? (fun p => p.1 == k) (List.filter (fun p => p.1 != k) c) = none := by
    rw [List.find?_eq_none]
    intro x hx
    have hx2 := (List.mem_filter.mp hx).2
    simpa using hx2
  simp [cacheGet, cacheDelete, h]

/-- Cancelling a RUNNING or QUEUED execution: the row moves to CANCELLED with
`completed_at` stamped, the snapshot is deleted, and nothing else changes —
in particular no result row is created or modified. -/
theorem cancel_running (s : Sys) (e0 : TestExecution) (hexe : s.db.executions = [e0])
    (h : e0.status = ExecutionStatus.running ∨ e0.status = ExecutionStatus.queued) :
    _cancel_execution_async s e0.id =
      ({ s with
         clock := s.clock + 1,
         db := { s.db with
                 executions := [{ e0 with
                   status := ExecutionStatus.cancelled,
                   completed_at := some s.clock }] },
         cache := cacheDelete s.cache e0.id },
       { success := true, error := none, execution_id := some e0.id }) := by
  unfold _cancel_execution_async
  rw [findExecution_singleton s.db e0 hexe]
  dsimp only
  rw [if_pos h]
  simp [persistExec, tick, updateExecution, hexe, cacheDelete]

/-- Cancelling an execution that is in neither RUNNING nor QUEUED returns the
source's failure dict and leaves the entire state untouched. -/
theorem cancel_notRunning (s : Sys) (e0 : TestExecution) (hexe : s.db.executions = [e0])
    (h : ¬(e0.status = ExecutionStatus.running ∨ e0.status = ExecutionStatus.queued)) :
    _cancel_execution_async s e0.id =
      (s, { success := false, error := some "Execution is not running",
            execution_id := none }) := by
  unfold _cancel_execution_async
  rw [findExecution_singleton s.db e0 hexe]
  dsimp only
  rw [if_neg h]

theorem round2_nonneg {x : ℚ} (hx : 0 ≤ x) : 0 ≤ round2 x := by
  unfold round2
  have h : (0 : ℤ) ≤ round (x * 100) := by
    rw [round_eq]
    have h2 : (0 : ℚ) ≤ x * 100 + 1 / 2 := by nlinarith
    exact Int.floor_nonneg.mpr h2
  have h3 : (0 : ℚ) ≤ ((round (x * 100) : ℤ) : ℚ) := by exact_mod_cast h
  linarith

theorem round2_le_100 {x : ℚ} (hx : x ≤ 100) : round2 x ≤ 100 := by
  unfold round2
  have h : round (x * 100) ≤ 10000 := by
    rw [round_eq]
    have h1 : x * 100 + 1 / 2 ≤ (10000 : ℚ) + 1 / 2 := by nlinarith
    have h2 := Int.floor_mono h1
    have h3 : ⌊(10000 : ℚ) + 1 / 2⌋ = 10000 := by norm_num
    omega
  have h4 : ((round (x * 100) : ℤ) : ℚ) ≤ 10000 := by exact_mod_cast h
  linarith

/-! ## Claims -/

/-- C2.  Authoritative recount at completion: an execution run from a fresh
row (no prior results, zeroed counters) over a target set of size N returns
normally with the row COMPLETED; exactly N Test-Case Result rows exist for it;
each aggregate counter equals the recount over the full set of persisted
result rows (the definition of `_update_execution_summary`); and
passed + failed + skipped + blocked + error = total_tests = N. -/
theorem C2_completed_recount (env : Env) (hcf : ∀ k, env.cacheFail k = false)
    (s : Sys) (e0 : TestExecution) (task_id : String)
    (hexe : s.db.executions = [e0])
    (hres0 : resultsFor s.db e0.id = [])
    (hzero : e0.passed_tests = 0 ∧ e0.failed_tests = 0 ∧ e0.skipped_tests = 0
      ∧ e0.blocked_tests = 0 ∧ e0.error_tests = 0) :
    ∃ sF eF ret,
      _execute_test_suite_async env s e0.id task_id = (sF, Except.ok ret)
      ∧ findExecution sF.db e0.id = some eF
      ∧ eF.status = ExecutionStatus.completed
      ∧ (resultsFor sF.db e0.id).length = (_get_test_cases_for_execution s.db e0).length
      ∧ eF.total_tests = (_get_test_cases_for_execution s.db e0).length
      ∧ eF.passed_tests = countStatus (resultsFor sF.db e0.id) TestResultStatus.passed
      ∧ eF.failed_tests = countStatus (resultsFor sF.db e0.id) TestResultStatus.failed
      ∧ eF.skipped_tests = countStatus (resultsFor sF.db e0.id) TestResultStatus.skipped
      ∧ eF.blocked_tests = countStatus (resultsFor sF.db e0.id) TestResultStatus.blocked
      ∧ eF.error_tests = countStatus (resultsFor sF.db e0.id) TestResultStatus.error
      ∧ eF.passed_tests + eF.failed_tests + eF.skipped_tests + eF.blocked_tests
          + eF.error_tests = eF.total_tests := by
  obtain ⟨hz1, hz2, hz3, hz4, hz5⟩ := hzero
  by_cases hE : _get_test_cases_for_execution s.db e0 = []
  · rcases executeSuite_empty env hcf s e0 task_id hexe hE with
      ⟨sF, heq, hexeF, hresF, htcF, hlogF⟩
    have hrf : resultsFor sF.db e0.id = [] := by
      rw [resultsFor_def, hresF]
      exact hres0
    refine ⟨sF, _, ExecRet.emptyOk, heq,
      findExecution_singleton2 sF.db _ e0.id hexeF rfl, rfl, ?_, ?_, ?_, ?_, ?_, ?_, ?_, ?_⟩
    · rw [hrf, hE]; rfl
    · rw [hE]; rfl
    · rw [hrf]; simpa [countStatus] using hz1
    · rw [hrf]; simpa [countStatus] using hz2
    · rw [hrf]; simpa [countStatus] using hz3
    · rw [hrf]; simpa [countStatus] using hz4
    · rw [hrf]; simpa [countStatus] using hz5
    · show e0.passed_tests + e0.failed_tests + e0.skipped_tests + e0.blocked_tests
        + e0.error_tests = 0
      omega
  · rcases executeSuite_nonempty env hcf s e0 task_id hexe hE with
      ⟨sF, newRs, eF, heq, hB, hfind, hC, hD, hE1, hF1, hG, hid, hst, htot, hp, hf, hsk,
        hbl, herr, hcomp, hstart, htask, hsuite, hproj⟩
    have hresAll : resultsFor sF.db e0.id = newRs := by
      rw [resultsFor_def, hC, List.filter_append,
        filter_execution_id_eq_self newRs e0.id (goodResults_execution_id env e0.id _ _ hG),
        show List.filter (fun r => r.execution_id == e0.id) s.db.results = [] from hres0,
        List.nil_append]
    refine ⟨sF, eF, _, heq, hfind, hst, ?_, htot, hp, hf, hsk, hbl, herr, ?_⟩
    · rw [hresAll]
      exact hG.length_eq.symm
    · rw [hp, hf, hsk, hbl, herr, htot, hresAll,
        countStatus_sum_eq_length newRs (goodResults_not_pending env e0.id _ _ hG)]
      exact hG.length_eq.symm

/-- C2 witness: on the concrete one-test-case fixture the run completes and
the counters sum to the total. -/
theorem C2_completed_recount_witness :
    ∃ sF eF ret,
      _execute_test_suite_async envAllPass sysFresh execFresh.id "t1" = (sF, Except.ok ret)
      ∧ findExecution sF.db execFresh.id = some eF
      ∧ eF.status = ExecutionStatus.completed
      ∧ eF.passed_tests + eF.failed_tests + eF.skipped_tests + eF.blocked_tests
          + eF.error_tests = eF.total_tests := by
  obtain ⟨sF, eF, ret, h1, h2, h3, _, _, _, _, _, _, _, hsum⟩ :=
    C2_completed_recount envAllPass (fun _ => rfl) sysFresh execFresh "t1" rfl rfl
      ⟨rfl, rfl, rfl, rfl, rfl⟩
  exact ⟨sF, eF, ret, h1, h2, h3, hsum⟩

/-- C1 counterexample: on a fresh one-test-case fixture the first run leaves
one result row for the (execution, test case) pair; re-invoking the entry
point with the same execution id does not skip the already-resolved test case
but creates a second row: the final state has two rows for the pair, not
exactly one. -/
theorem C1_counterexample :
    ((sysAfterRun.db.results.filter
        (fun r => r.execution_id == 1 && r.test_case_id == 10)).length = 1)
    ∧ (((_execute_test_suite_async envAllPass sysAfterRun 1 "t2").1.db.results.filter
        (fun r => r.execution_id == 1 && r.test_case_id == 10)).length = 2) := by
  decide

/-- C1 amended: re-invoking the orchestration entry point with the same
execution id after a completed first run does not skip test cases with a
terminal Test-Case Result: it re-runs the entire recomputed target set,
appending one further result row per test case, so the final state holds two
result rows per target test case instead of one. -/
theorem C1_reentry_reruns_target_set (env : Env) (hcf : ∀ k, env.cacheFail k = false)
    (s : Sys) (e0 : TestExecution) (task1 task2 : String)
    (hexe : s.db.executions = [e0])
    (hres0 : resultsFor s.db e0.id = [])
    (hne : _get_test_cases_for_execution s.db e0 ≠ []) :
    ∃ s1 s2,
      (_execute_test_suite_async env s e0.id task1).1 = s1
      ∧ (_execute_test_suite_async env s1 e0.id task2).1 = s2
      ∧ (resultsFor s1.db e0.id).length = (_get_test_cases_for_execution s.db e0).length
      ∧ (resultsFor s2.db e0.id).length =
          2 * (_get_test_cases_for_execution s.db e0).length := by
  rcases executeSuite_nonempty env hcf s e0 task1 hexe hne with
    ⟨s1, newRs1, eF1, heq1, hB1, hfind1, hC1, hD1, _, _, hG1, hid1, _, _, _, _, _, _, _, _,
      _, _, hsuite1, hproj1⟩
  have htc2 : _get_test_cases_for_execution s1.db eF1 = _get_test_cases_for_execution s.db e0 :=
    getTestCases_congr s.db s1.db e0 eF1 hD1 hsuite1 hproj1
  have hne2 : _get_test_cases_for_execution s1.db eF1 ≠ [] := by rw [htc2]; exact hne
  rcases executeSuite_nonempty env hcf s1 eF1 task2 hB1 hne2 with
    ⟨s2, newRs2, eF2, heq2, hB2, hfind2, hC2, hD2, _, _, hG2, hid2, _, _, _, _, _, _, _, _,
      _, _, _, _⟩
  have hr1 : resultsFor s1.db e0.id = newRs1 := by
    rw [resultsFor_def, hC1, List.filter_append,
      filter_execution_id_eq_self newRs1 e0.id (goodResults_execution_id env e0.id _ _ hG1),
      show List.filter (fun r => r.execution_id == e0.id) s.db.results = [] from hres0,
      List.nil_append]
  have hr2 : resultsFor s2.db e0.id = newRs1 ++ newRs2 := by
    have hids2 : ∀ r ∈ newRs2, r.execution_id = e0.id := by
      intro r hr
      rw [← hid1]
      exact goodResults_execution_id env eF1.id _ _ hG2 r hr
    rw [resultsFor_def, hC2, List.filter_append,
      filter_execution_id_eq_self newRs2 e0.id hids2]
    rw [show List.filter (fun r => r.execution_id == e0.id) s1.db.results = newRs1 from hr1]
  refine ⟨s1, s2, by rw [heq1], by rw [← hid1]; rw [heq2], ?_, ?_⟩
  · rw [hr1]; exact hG1.length_eq.symm
  · rw [hr2, List.length_append]
    have hl1 : newRs1.length = (_get_test_cases_for_execution s.db e0).length :=
      hG1.length_eq.symm
    have hl2 : newRs2.length = (_get_test_cases_for_execution s.db e0).length := by
      rw [← htc2]; exact hG2.length_eq.symm
    omega

/-- C1 witness for the amended theorem at the concrete fixture. -/
theorem C1_reentry_witness :
    ∃ s1 s2,
      (_execute_test_suite_async envAllPass sysFresh execFresh.id "t1").1 = s1
      ∧ (_execute_test_suite_async envAllPass s1 execFresh.id "t2").1 = s2
      ∧ (resultsFor s1.db execFresh.id).length = 1
      ∧ (resultsFor s2.db execFresh.id).length = 2 := by
  obtain ⟨s1, s2, h1, h2, h3, h4⟩ :=
    C1_reentry_reruns_target_set envAllPass (fun _ => rfl) sysFresh execFresh "t1" "t2"
      rfl rfl (by decide)
  refine ⟨s1, s2, h1, h2, ?_, ?_⟩
  · rw [h3]; decide
  · rw [h4]; decide

/-- C3 counterexample: cancelling a RUNNING execution whose target set holds
one not-yet-run test case (test case 10) transitions the row to CANCELLED but
creates no Test-Case Result at all — in particular the remaining test case is
not given a SKIPPED result; it is left with no result row. -/
theorem C3_counterexample :
    (_get_test_cases_for_execution sysRunning.db
      { execFresh with status := ExecutionStatus.running } = [tcActive])
    ∧ ((findExecution (_cancel_execution_async sysRunning 1).1.db 1).map
        TestExecution.status = some ExecutionStatus.cancelled)
    ∧ ((_cancel_execution_async sysRunning 1).1.db.results = []) := by
  decide

/-- C3 amended: the cancellation task moves a RUNNING or QUEUED execution to
CANCELLED with `completed_at` stamped and the Progress Snapshot deleted, but
creates no Test-Case Result: test cases not yet run keep no result row (they
are not marked SKIPPED).  Moreover the per-test-case loop performs no
cancellation check: invoking the orchestration entry point on an execution
already in CANCELLED still runs the full target set and creates one result
row per test case. -/
theorem C3_cancel_marks_cancelled_without_skipped :
    (∀ (s : Sys) (e0 : TestExecution), s.db.executions = [e0] →
      (e0.status = ExecutionStatus.running ∨ e0.status = ExecutionStatus.queued) →
      _cancel_execution_async s e0.id =
        ({ s with
           clock := s.clock + 1,
           db := { s.db with
                   executions := [{ e0 with
                     status := ExecutionStatus.cancelled,
                     completed_at := some s.clock }] },
           cache := cacheDelete s.cache e0.id },
         { success := true, error := none, execution_id := some e0.id })
      ∧ cacheGet (_cancel_execution_async s e0.id).1.cache e0.id = none)
    ∧ (∀ (env : Env) (s : Sys) (e0 : TestExecution) (task_id : String),
      (∀ k, env.cacheFail k = false) → s.db.executions = [e0] →
      e0.status = ExecutionStatus.cancelled →
      _get_test_cases_for_execution s.db e0 ≠ [] →
      ∃ sF newRs,
        (_execute_test_suite_async env s e0.id task_id).1 = sF
        ∧ sF.db.results = s.db.results ++ newRs
        ∧ newRs.length = (_get_test_cases_for_execution s.db e0).length) := by
  constructor
  · intro s e0 hexe h
    refine ⟨cancel_running s e0 hexe h, ?_⟩
    rw [cancel_running s e0 hexe h]
    exact cacheGet_delete s.cache e0.id
  · intro env s e0 task_id hcf hexe _ hne
    rcases executeSuite_nonempty env hcf s e0 task_id hexe hne with
      ⟨sF, newRs, eF, heq, _, _, hC, _, _, _, hG, _⟩
    exact ⟨sF, newRs, by rw [heq], hC, hG.length_eq.symm⟩

/-- C3 witness for the amended theorem at concrete fixtures: cancel a RUNNING
execution, and re-run an already-CANCELLED one. -/
theorem C3_cancel_witness :
    (_cancel_execution_async sysRunning 1).1.db.results = []
    ∧ cacheGet (_cancel_execution_async sysRunning 1).1.cache 1 = none
    ∧ (∃ sF newRs,
        (_execute_test_suite_async envAllPass
          { sysFresh with
            db := { sysFresh.db with
                    executions := [{ execFresh with
                      status := ExecutionStatus.cancelled }] } } 1 "t9").1 = sF
        ∧ sF.db.results = [] ++ newRs ∧ newRs.length = 1) := by
  have h1 := (C3_cancel_marks_cancelled_without_skipped.1
    sysRunning { execFresh with status := ExecutionStatus.running } rfl (Or.inl rfl))
  have h2 := C3_cancel_marks_cancelled_without_skipped.2 envAllPass
    { sysFresh with
      db := { sysFresh.db with
              executions := [{ execFresh with status := ExecutionStatus.cancelled }] } }
    { execFresh with status := ExecutionStatus.cancelled } "t9"
    (fun _ => rfl) rfl rfl (by decide)
  have h1' : _cancel_execution_async sysRunning 1 = _ := h1.1
  refine ⟨?_, ?_, ?_⟩
  · rw [h1']; rfl
  · exact h1.2
  · obtain ⟨sF, newRs, ha, hb, hc⟩ := h2
    exact ⟨sF, newRs, ha, hb, by rw [hc]; decide⟩

/-- C4 counterexample: with the third cache write (the final COMPLETED
Progress-Snapshot write) failing, the already-committed COMPLETED transition
is overwritten: the entry point re-raises and the Execution row ends FAILED,
so a Progress-Snapshot write failure is not swallowed. -/
theorem C4_counterexample :
    (_execute_test_suite_async envCacheFailAt2 sysFresh 1 "t1").2 =
      Except.error "cache write failed"
    ∧ (findExecution (_execute_test_suite_async envCacheFailAt2 sysFresh 1 "t1").1.db 1).map
        TestExecution.status = some ExecutionStatus.failed := by
  decide

/-- C4 amended: a failure raised while writing the durable entry to the
Execution Log Store is swallowed (logged, not re-raised): the run still
returns normally, the Execution row still reaches COMPLETED with its counters,
and no log entry is written.  (A failure writing the Progress Snapshot, by
contrast, propagates to the outer handler and marks the execution FAILED — see
the counterexample.) -/
theorem C4_log_store_best_effort (env : Env) (hcf : ∀ k, env.cacheFail k = false)
    (hmongo : env.mongoFail = true)
    (s : Sys) (e0 : TestExecution) (task_id : String)
    (hexe : s.db.executions = [e0])
    (hne : _get_test_cases_for_execution s.db e0 ≠ []) :
    ∃ (sF : Sys) (eF : TestExecution),
      _execute_test_suite_async env s e0.id task_id =
        (sF, Except.ok (ExecRet.completedOk e0.id eF.total_tests eF.passed_tests
          eF.failed_tests eF.duration_seconds))
      ∧ findExecution sF.db e0.id = some eF
      ∧ eF.status = ExecutionStatus.completed
      ∧ sF.logs = s.logs := by
  rcases executeSuite_nonempty env hcf s e0 task_id hexe hne with
    ⟨sF, newRs, eF, heq, _, hfind, _, _, hlogT, _, _, _, hst, _⟩
  exact ⟨sF, eF, heq, hfind, hst, hlogT hmongo⟩

/-- C4 witness for the amended theorem: with the MongoDB insert failing on the
one-test-case fixture, the run completes and the log store stays empty. -/
theorem C4_log_store_witness :
    ∃ (sF : Sys) (eF : TestExecution),
      _execute_test_suite_async envMongoFail sysFresh execFresh.id "t1" =
        (sF, Except.ok (ExecRet.completedOk execFresh.id eF.total_tests eF.passed_tests
          eF.failed_tests eF.duration_seconds))
      ∧ eF.status = ExecutionStatus.completed
      ∧ sF.logs = [] := by
  obtain ⟨sF, eF, heq, _, hst, hlog⟩ :=
    C4_log_store_best_effort envMongoFail (fun _ => rfl) rfl sysFresh execFresh "t1"
      rfl (by decide)
  exact ⟨sF, eF, heq, hst, hlog⟩

/-- C5 counterexample: after re-invoking the entry point on an execution whose
target set was already fully run, the recounted counters double-count the
duplicated result rows: the final row has total_tests = 1 but counter sum 2,
violating passed + failed + skipped + blocked + error ≤ total_tests. -/
theorem C5_counterexample :
    (findExecution (_execute_test_suite_async envAllPass sysAfterRun 1 "t2").1.db 1).map
      (fun e => decide (e.total_tests <
        e.passed_tests + e.failed_tests + e.skipped_tests + e.blocked_tests
          + e.error_tests)) = some true := by
  decide

/-- C5 amended: within a single uninterrupted run from a fresh row the
invariant holds — at COMPLETED the counter sum equals total_tests (hence ≤),
and total_tests equals the size of the target set fixed when the execution
entered RUNNING.  Across orchestrator re-entry for the same execution id the
invariant fails, because the authoritative recount also counts the first
run's rows (see the counterexample). -/
theorem C5_single_run_counters (env : Env) (hcf : ∀ k, env.cacheFail k = false)
    (s : Sys) (e0 : TestExecution) (task_id : String)
    (hexe : s.db.executions = [e0])
    (hres0 : resultsFor s.db e0.id = [])
    (hne : _get_test_cases_for_execution s.db e0 ≠ []) :
    ∃ sF eF ret,
      _execute_test_suite_async env s e0.id task_id = (sF, Except.ok ret)
      ∧ findExecution sF.db e0.id = some eF
      ∧ eF.status = ExecutionStatus.completed
      ∧ eF.total_tests = (_get_test_cases_for_execution s.db e0).length
      ∧ eF.passed_tests + eF.failed_tests + eF.skipped_tests + eF.blocked_tests
          + eF.error_tests = eF.total_tests
      ∧ eF.passed_tests + eF.failed_tests + eF.skipped_tests + eF.blocked_tests
          + eF.error_tests ≤ eF.total_tests := by
  rcases executeSuite_nonempty env hcf s e0 task_id hexe hne with
    ⟨sF, newRs, eF, heq, _, hfind, hC, _, _, _, hG, _, hst, htot, hp, hf, hsk, hbl, herr, _⟩
  have hresAll : resultsFor sF.db e0.id = newRs := by
    rw [resultsFor_def, hC, List.filter_append,
      filter_execution_id_eq_self newRs e0.id (goodResults_execution_id env e0.id _ _ hG),
      show List.filter (fun r => r.execution_id == e0.id) s.db.results = [] from hres0,
      List.nil_append]
  have hsum : eF.passed_tests + eF.failed_tests + eF.skipped_tests + eF.blocked_tests
      + eF.error_tests = eF.total_tests := by
    rw [hp, hf, hsk, hbl, herr, htot, hresAll,
      countStatus_sum_eq_length newRs (goodResults_not_pending env e0.id _ _ hG)]
    exact hG.length_eq.symm
  exact ⟨sF, eF, _, heq, hfind, hst, htot, hsum, le_of_eq hsum⟩

/-- C5 witness for the amended theorem at the concrete fixture. -/
theorem C5_single_run_witness :
    ∃ sF eF ret,
      _execute_test_suite_async envAllPass sysFresh execFresh.id "t1" = (sF, Except.ok ret)
      ∧ findExecution sF.db execFresh.id = some eF
      ∧ eF.passed_tests + eF.failed_tests + eF.skipped_tests + eF.blocked_tests
          + eF.error_tests ≤ eF.total_tests := by
  obtain ⟨sF, eF, ret, heq, hfind, _, _, _, hle⟩ :=
    C5_single_run_counters envAllPass (fun _ => rfl) sysFresh execFresh "t1" rfl rfl
      (by decide)
  exact ⟨sF, eF, ret, heq, hfind, hle⟩

/-- C6 counterexample: an execution over a project with no active test case
completes with total 0 and no result rows, but no Execution Log Store entry is
written (the empty-set branch returns before the log write), contradicting
"exactly one entry with an empty results list". -/
theorem C6_counterexample :
    ((_execute_test_suite_async envAllPass sysNoActive 1 "t1").1.logs).length = 0
    ∧ (findExecution (_execute_test_suite_async envAllPass sysNoActive 1 "t1").1.db 1).map
        TestExecution.status = some ExecutionStatus.completed
    ∧ (findExecution (_execute_test_suite_async envAllPass sysNoActive 1 "t1").1.db 1).map
        TestExecution.total_tests = some 0 := by
  decide

/-- C6 amended: an execution whose target-set resolution yields zero test
cases transitions directly to COMPLETED with total_tests = 0 and pass_rate 0,
creates no Test-Case Result rows — and writes nothing to the Execution Log
Store (the empty-set path returns before the log write). -/
theorem C6_empty_target_set (env : Env) (hcf : ∀ k, env.cacheFail k = false)
    (s : Sys) (e0 : TestExecution) (task_id : String)
    (hexe : s.db.executions = [e0])
    (hzero : e0.passed_tests = 0 ∧ e0.failed_tests = 0)
    (hE : _get_test_cases_for_execution s.db e0 = []) :
    ∃ sF eF,
      _execute_test_suite_async env s e0.id task_id = (sF, Except.ok ExecRet.emptyOk)
      ∧ findExecution sF.db e0.id = some eF
      ∧ eF.status = ExecutionStatus.completed
      ∧ eF.total_tests = 0
      ∧ eF.pass_rate = 0
      ∧ sF.db.results = s.db.results
      ∧ sF.logs = s.logs := by
  rcases executeSuite_empty env hcf s e0 task_id hexe hE with
    ⟨sF, heq, hexeF, hresF, htcF, hlogF⟩
  refine ⟨sF, _, heq, findExecution_singleton2 sF.db _ e0.id hexeF rfl, rfl, rfl, ?_,
    hresF, hlogF⟩
  show TestExecution.pass_rate _ = 0
  simp [TestExecution.pass_rate, hzero.1, hzero.2]

/-- C6 witness for the amended theorem at the concrete no-active-test-case
fixture. -/
theorem C6_empty_target_witness :
    ∃ sF eF,
      _execute_test_suite_async envAllPass sysNoActive execFresh.id "t1" =
        (sF, Except.ok ExecRet.emptyOk)
      ∧ findExecution sF.db execFresh.id = some eF
      ∧ eF.total_tests = 0 ∧ eF.pass_rate = 0 ∧ sF.logs = [] := by
  obtain ⟨sF, eF, heq, hfind, _, htot, hpr, _, hlog⟩ :=
    C6_empty_target_set envAllPass (fun _ => rfl) sysNoActive execFresh "t1" rfl
      ⟨rfl, rfl⟩ (by decide)
  exact ⟨sF, eF, heq, hfind, htot, hpr, hlog⟩

/-- C7.  Runner error containment: when the unit-of-work runner raises for a
test case in the target set, the recorded result for that test case has status
ERROR with the raised message as error_message and completed_at / duration
set; the exception does not escape — the entry point still returns normally
and the execution still reaches COMPLETED. -/
theorem C7_runner_error_contained (env : Env) (hcf : ∀ k, env.cacheFail k = false)
    (s : Sys) (e0 : TestExecution) (task_id : String) (tc : TestCase) (msg : String)
    (hexe : s.db.executions = [e0])
    (htc : tc ∈ _get_test_cases_for_execution s.db e0)
    (hraise : env.runner tc.id = RunnerOutcome.raises msg) :
    ∃ (sF : Sys) (eF : TestExecution) (ret : ExecRet) (r : TestCaseResult),
      _execute_test_suite_async env s e0.id task_id = (sF, Except.ok ret)
      ∧ findExecution sF.db e0.id = some eF
      ∧ eF.status = ExecutionStatus.completed
      ∧ r ∈ resultsFor sF.db e0.id
      ∧ r.test_case_id = tc.id
      ∧ r.status = TestResultStatus.error
      ∧ r.error_message = some msg
      ∧ r.completed_at.isSome ∧ r.duration_seconds.isSome := by
  have hne : _get_test_cases_for_execution s.db e0 ≠ [] := List.ne_nil_of_mem htc
  rcases executeSuite_nonempty env hcf s e0 task_id hexe hne with
    ⟨sF, newRs, eF, heq, _, hfind, hC, _, _, _, hG, _, hst, _⟩
  rcases forall₂_mem_left hG tc htc with ⟨r, hrmem, hgood⟩
  obtain ⟨hgid, hgtc, hgterm, hgcomp, hgdur, hgrefl⟩ := hgood
  have hrefl : r.status = TestResultStatus.error ∧ r.error_message = some msg := by
    unfold reflectsRunner at hgrefl
    rw [hraise] at hgrefl
    exact hgrefl
  refine ⟨sF, eF, _, r, heq, hfind, hst, ?_, hgtc, hrefl.1, hrefl.2, hgcomp, hgdur⟩
  rw [resultsFor_def, hC, List.filter_append]
  refine List.mem_append_right _ ?_
  exact List.mem_filter.mpr ⟨hrmem, by simp [hgid]⟩

/-- C7 witness: the runner raising "boom" on the one-test-case fixture yields
an ERROR result carrying "boom" while the execution completes. -/
theorem C7_runner_error_witness :
    ∃ (sF : Sys) (eF : TestExecution) (ret : ExecRet) (r : TestCaseResult),
      _execute_test_suite_async envRaise sysFresh execFresh.id "t1" = (sF, Except.ok ret)
      ∧ findExecution sF.db execFresh.id = some eF
      ∧ eF.status = ExecutionStatus.completed
      ∧ r ∈ resultsFor sF.db execFresh.id
      ∧ r.status = TestResultStatus.error ∧ r.error_message = some "boom" := by
  obtain ⟨sF, eF, ret, r, h1, h2, h3, h4, _, h6, h7, _⟩ :=
    C7_runner_error_contained envRaise (fun _ => rfl) sysFresh execFresh "t1" tcActive
      "boom" rfl (by decide) rfl
  exact ⟨sF, eF, ret, r, h1, h2, h3, h4, h6, h7⟩

/-- C8.  Pass rate: the source's `pass_rate` equals the spec's formula
(passed / (passed + failed) × 100 rounded to two decimals), is exactly 0 when
the denominator is 0, always lies in [0, 100], and evaluates to 66.67 at
passed = 2, failed = 1. -/
theorem C8_pass_rate (e : TestExecution) :
    e.pass_rate = specPassRate e.passed_tests e.failed_tests
    ∧ (e.passed_tests + e.failed_tests = 0 → e.pass_rate = 0)
    ∧ 0 ≤ e.pass_rate ∧ e.pass_rate ≤ 100
    ∧ TestExecution.pass_rate
        { execFresh with passed_tests := 2, failed_tests := 1 } = 6667 / 100 := by
  refine ⟨rfl, ?_, ?_, ?_, ?_⟩
  · intro h
    simp [TestExecution.pass_rate, h]
  · unfold TestExecution.pass_rate
    dsimp only
    split
    · norm_num
    · apply round2_nonneg
      positivity
  · unfold TestExecution.pass_rate
    dsimp only
    split
    · norm_num
    · next h =>
        apply round2_le_100
        have hle : (e.passed_tests : ℚ) ≤ ((e.passed_tests + e.failed_tests : Nat) : ℚ) := by
          exact_mod_cast Nat.le_add_right _ _
        have hpos : (0 : ℚ) < ((e.passed_tests + e.failed_tests : Nat) : ℚ) := by
          exact_mod_cast Nat.pos_of_ne_zero h
        have hdiv := (div_le_one hpos).mpr hle
        nlinarith
  · norm_num [TestExecution.pass_rate, round2, round_eq]

/-- C8 witness: the zero-denominator case at a concrete row, and the bounds at
a concrete row with passed = 2, failed = 1. -/
theorem C8_pass_rate_witness :
    TestExecution.pass_rate execFresh = 0
    ∧ 0 ≤ TestExecution.pass_rate execDone
    ∧ TestExecution.pass_rate execDone ≤ 100 :=
  ⟨(C8_pass_rate execFresh).2.1 (by decide), (C8_pass_rate execDone).2.2.1,
    (C8_pass_rate execDone).2.2.2.1⟩

/-- C9 counterexample: cancelling the COMPLETED execution of the fixture
leaves the whole state untouched, but the operation's response is a failure
carrying an error message ({"success": false, "error": "Execution is not
running"}) — it is reported as an error, not as a harmless no-op. -/
theorem C9_counterexample :
    ((_cancel_execution_async sysDone 1).2.success = false
      ∧ (_cancel_execution_async sysDone 1).2.error = some "Execution is not running")
    ∧ (_cancel_execution_async sysDone 1).1 = sysDone := by
  decide

/-- C9 amended: a cancellation against an execution in neither RUNNING nor
QUEUED leaves the Execution row, the results, the cache, and the log store
entirely unchanged and creates nothing — but it is reported as a failure with
error "Execution is not running" rather than as a successful no-op; from
RUNNING or QUEUED, cancellation sets status CANCELLED, stamps completed_at,
and deletes the Progress Snapshot. -/
theorem C9_cancel_terminal_noop (s : Sys) (e0 : TestExecution)
    (hexe : s.db.executions = [e0]) :
    (¬(e0.status = ExecutionStatus.running ∨ e0.status = ExecutionStatus.queued) →
      _cancel_execution_async s e0.id =
        (s, { success := false, error := some "Execution is not running",
              execution_id := none }))
    ∧ ((e0.status = ExecutionStatus.running ∨ e0.status = ExecutionStatus.queued) →
      _cancel_execution_async s e0.id =
        ({ s with
           clock := s.clock + 1,
           db := { s.db with
                   executions := [{ e0 with
                     status := ExecutionStatus.cancelled,
                     completed_at := some s.clock }] },
           cache := cacheDelete s.cache e0.id },
         { success := true, error := none, execution_id := some e0.id })) :=
  ⟨cancel_notRunning s e0 hexe, cancel_running s e0 hexe⟩

/-- C9 witness: the no-op branch at the COMPLETED fixture and the effective
branch at the RUNNING fixture. -/
theorem C9_cancel_terminal_witness :
    _cancel_execution_async sysDone 1 =
      (sysDone, { success := false, error := some "Execution is not running",
                  execution_id := none })
    ∧ (_cancel_execution_async sysRunning 1).2 =
        { success := true, error := none, execution_id := some 1 } := by
  have h1 := (C9_cancel_terminal_noop sysDone execDone rfl).1 (by decide)
  have h2 := (C9_cancel_terminal_noop sysRunning
    { execFresh with status := ExecutionStatus.running } rfl).2 (Or.inl rfl)
  have h2' : _cancel_execution_async sysRunning 1 = _ := h2
  exact ⟨h1, by rw [h2']; rfl⟩


/-- C10.  Unconditional RUNNING transition: for any execution row present in
the store — whatever its current status, including terminal ones — the entry
point applies `markRunning`, which sets status RUNNING and overwrites
started_at and celery_task_id with no guard, and then re-runs the entire
target set, creating one new result row per target test case. -/
theorem C10_unconditional_running (env : Env) (hcf : ∀ k, env.cacheFail k = false)
    (s : Sys) (e0 : TestExecution) (task_id : String)
    (hexe : s.db.executions = [e0])
    (hne : _get_test_cases_for_execution s.db e0 ≠ []) :
    (markRunning s e0 task_id).2.status = ExecutionStatus.running
    ∧ (markRunning s e0 task_id).2.started_at = some s.clock
    ∧ (markRunning s e0 task_id).2.celery_task_id = some task_id
    ∧ ∃ (sF : Sys) (newRs : List TestCaseResult) (eF : TestExecution),
        _execute_test_suite_async env s e0.id task_id =
          (sF, Except.ok (ExecRet.completedOk e0.id eF.total_tests eF.passed_tests
            eF.failed_tests eF.duration_seconds))
        ∧ sF.db.results = s.db.results ++ newRs
        ∧ newRs.length = (_get_test_cases_for_execution s.db e0).length
        ∧ findExecution sF.db e0.id = some eF
        ∧ eF.status = ExecutionStatus.completed
        ∧ eF.started_at = some s.clock
        ∧ eF.celery_task_id = some task_id := by
  refine ⟨rfl, rfl, rfl, ?_⟩
  rcases executeSuite_nonempty env hcf s e0 task_id hexe hne with
    ⟨sF, newRs, eF, heq, _, hfind, hC, _, _, _, hG, _, hst, _, _, _, _, _, _, _, hstart,
      htask, _, _⟩
  exact ⟨sF, newRs, eF, heq, hC, hG.length_eq.symm, hfind, hst, hstart, htask⟩

/-- C10 witness: re-dispatching the COMPLETED fixture execution re-runs its
one-test-case target set and appends a new result row. -/
theorem C10_unconditional_running_witness :
    execDone.status = ExecutionStatus.completed
    ∧ (markRunning sysDone execDone "t5").2.status = ExecutionStatus.running
    ∧ ∃ (sF : Sys) (newRs : List TestCaseResult) (eF : TestExecution),
        _execute_test_suite_async envAllPass sysDone execDone.id "t5" =
          (sF, Except.ok (ExecRet.completedOk execDone.id eF.total_tests eF.passed_tests
            eF.failed_tests eF.duration_seconds))
        ∧ newRs.length = 1
        ∧ sF.db.results = [] ++ newRs := by
  obtain ⟨h1, _, _, sF, newRs, eF, heq, hC, hlen, _⟩ :=
    C10_unconditional_running envAllPass (fun _ => rfl) sysDone execDone "t5" rfl
      (by decide)
  exact ⟨rfl, h1, sF, newRs, eF, heq, by rw [hlen]; decide, hC⟩

end TestFlow
